import Mathlib

/-
  Verification of the device-session and signing-protocol layer of the
  ledger-ethers-signer repository.

  The development shallowly embeds the relevant source functions:
  * the `retry` executor (common package, re-exported in
    `src/viem-v2/test/testSignTx.ts` lines 107-128, and the structurally
    identical `_retry` method of `LedgerSigner`);
  * `parseBip32Path` (`src/common/src/index.ts` lines 24-52);
  * the `signTypedData` control flow (`LedgerSigner.signTypedData`);
  * the address cache of `getAddress`;
  * the lazy, race-prone `create` initialization protocol, modelled as a
    small-step transition system whose steps are the atomic blocks between
    `await` points of the JavaScript source.
-/

/-! ### Duck-typed JavaScript errors

The source inspects errors via `error?.id` and `error?.statusCode`; both
fields may be absent, hence `Option`. -/

structure JsError where
  id : Option String
  statusCode : Option Nat
  message : String
deriving DecidableEq, Repr

/-- The error thrown by the retry loop after exhausting its budget:
`throw new Error("timeout")`. -/
def timeoutError : JsError := JsError.mk none none "timeout"

/-! ### The retry executor

Embedding of the curried `retry` function:

```
export const retry = (container, errorHook?) => async (operation) => {
    for (let i = 0; i < 1200; i++) {
        try {
            const result = await operation(container.app);
            return result;
        } catch (error) {
            if (errorHook !== undefined) errorHook(error);
            if (error?.id !== "TransportLocked") { throw error; }
        }
        await sleep(100);
    }
    throw new Error("timeout");
}
```

The operation is modelled as a function from the attempt number to an
`Except` outcome (the attempt number stands for the state of the outside
world at each attempt).  The result records how many attempts were made and
how many 100 ms pauses (`await sleep(100)`) were executed, so that timing
claims can be stated. -/

inductive RetryOutcome (α : Type) where
  | success (value : α) (attempts : Nat) (pauses : Nat)
  | failure (error : JsError) (attempts : Nat) (pauses : Nat)
deriving DecidableEq, Repr

/-- `if (errorHook !== undefined) errorHook(error);` — an absent hook never
throws; a present hook may throw (modelled as `Except.error`). -/
def runHook : Option (JsError → Except JsError Unit) → JsError → Except JsError Unit
  | none, _ => .ok ()
  | some h, e => h e

/-- One pass of the `for (let i = 0; i < 1200; i++)` loop body.  `i` is the
loop counter, `rem` the remaining attempts, `pauses` the pauses so far. -/
def retryLoop {α : Type} (hook : Option (JsError → Except JsError Unit))
    (op : Nat → Except JsError α) (i rem pauses : Nat) : RetryOutcome α :=
  match rem with
  | 0 => .failure timeoutError i pauses
  | rem' + 1 =>
    match op i with
    | .ok v => .success v (i + 1) pauses
    | .error e =>
      match runHook hook e with
      | .error e2 => .failure e2 (i + 1) pauses
      | .ok _ =>
        if e.id = some "TransportLocked" then
          retryLoop hook op (i + 1) rem' (pauses + 1)
        else
          .failure e (i + 1) pauses

/-- The fixed attempt bound of the loop. -/
def RETRY_ATTEMPTS : Nat := 1200

/-- The retry executor applied to an operation. -/
def retry {α : Type} (hook : Option (JsError → Except JsError Unit))
    (op : Nat → Except JsError α) : RetryOutcome α :=
  retryLoop hook op 0 RETRY_ATTEMPTS 0

/-- Attempt `j` fails with the busy sentinel and the hook does not throw on
it: the loop treats such an attempt as transient and pauses. -/
def busyOk {α : Type} (hook : Option (JsError → Except JsError Unit))
    (op : Nat → Except JsError α) (j : Nat) : Prop :=
  ∃ e, op j = .error e ∧ e.id = some "TransportLocked" ∧ runHook hook e = .ok ()

lemma retryLoop_zero {α : Type} (hook : Option (JsError → Except JsError Unit))
    (op : Nat → Except JsError α) (i p : Nat) :
    retryLoop hook op i 0 p = .failure timeoutError i p := rfl

lemma retryLoop_ok {α : Type} {hook : Option (JsError → Except JsError Unit)}
    {op : Nat → Except JsError α} {i r p : Nat} {v : α} (h : op i = .ok v) :
    retryLoop hook op i (r + 1) p = .success v (i + 1) p := by
  simp [retryLoop, h]

lemma retryLoop_hookThrow {α : Type} {hook : Option (JsError → Except JsError Unit)}
    {op : Nat → Except JsError α} {i r p : Nat} {e e2 : JsError}
    (h : op i = .error e) (hh : runHook hook e = .error e2) :
    retryLoop hook op i (r + 1) p = .failure e2 (i + 1) p := by
  simp [retryLoop, h, hh]

lemma retryLoop_busy {α : Type} {hook : Option (JsError → Except JsError Unit)}
    {op : Nat → Except JsError α} {i r p : Nat} {e : JsError}
    (h : op i = .error e) (hh : runHook hook e = .ok ())
    (hid : e.id = some "TransportLocked") :
    retryLoop hook op i (r + 1) p = retryLoop hook op (i + 1) r (p + 1) := by
  simp [retryLoop, h, hh, hid]

lemma retryLoop_nonbusy {α : Type} {hook : Option (JsError → Except JsError Unit)}
    {op : Nat → Except JsError α} {i r p : Nat} {e : JsError}
    (h : op i = .error e) (hh : runHook hook e = .ok ())
    (hid : e.id ≠ some "TransportLocked") :
    retryLoop hook op i (r + 1) p = .failure e (i + 1) p := by
  simp [retryLoop, h, hh, hid]

/-- Skipping a prefix of `k` busy attempts advances the counter, consumes
`k` of the budget, and records `k` pauses. -/
lemma retryLoop_busy_skip {α : Type} {hook : Option (JsError → Except JsError Unit)}
    {op : Nat → Except JsError α} :
    ∀ (k i rem p : Nat), k ≤ rem → (∀ j, j < k → busyOk hook op (i + j)) →
      retryLoop hook op i rem p = retryLoop hook op (i + k) (rem - k) (p + k) := by
  intro k
  induction k with
  | zero => intro i rem p _ _; simp
  | succ k ih =>
    intro i rem p hk hb
    match rem, hk with
    | r + 1, hk =>
      obtain ⟨e, hop, hid, hh⟩ := hb 0 (Nat.succ_pos k)
      rw [show i + 0 = i from rfl] at hop
      rw [retryLoop_busy hop hh hid]
      have hb' : ∀ j, j < k → busyOk hook op (i + 1 + j) := by
        intro j hj
        have := hb (j + 1) (by omega)
        rwa [show i + (j + 1) = i + 1 + j by omega] at this
      rw [ih (i + 1) r (p + 1) (by omega) hb']
      rw [show i + 1 + k = i + (k + 1) by omega]
      rw [show p + 1 + k = p + (k + 1) by omega]
      rw [show r - k = r + 1 - (k + 1) by omega]

/-- Claim C4: for every operation passed to the retry executor, if the
operation fails with the busy sentinel (`error.id = "TransportLocked"`) on
exactly `k` attempts with `k < 1200` and then succeeds, `execute` returns the
success value after `k + 1` attempts and exactly `k` pauses (hence at least
`k` pauses); if the operation reports busy on every attempt, `execute` fails
with the timeout error after exactly 1200 attempts (and 1200 pauses). -/
theorem claim4_retry_busy_bounded {α : Type}
    (hook : Option (JsError → Except JsError Unit)) (op : Nat → Except JsError α) :
    (∀ k v, k < RETRY_ATTEMPTS → (∀ j, j < k → busyOk hook op j) → op k = .ok v →
        retry hook op = .success v (k + 1) k)
    ∧ ((∀ j, j < RETRY_ATTEMPTS → busyOk hook op j) →
        retry hook op = .failure timeoutError RETRY_ATTEMPTS RETRY_ATTEMPTS) := by
  constructor
  · intro k v hk hb hok
    unfold retry
    rw [retryLoop_busy_skip k 0 RETRY_ATTEMPTS 0 (Nat.le_of_lt hk)
      (by intro j hj; simpa using hb j hj)]
    have hrem : RETRY_ATTEMPTS - k = (RETRY_ATTEMPTS - k - 1) + 1 := by
      unfold RETRY_ATTEMPTS at hk ⊢; omega
    rw [hrem]
    rw [show (0 : Nat) + k = k by omega] at *
    rw [retryLoop_ok hok]
  · intro hb
    unfold retry
    rw [retryLoop_busy_skip RETRY_ATTEMPTS 0 RETRY_ATTEMPTS 0 (Nat.le_refl _)
      (by intro j hj; simpa using hb j hj)]
    simp [retryLoop_zero]

/-- A concrete operation for the witness of claim C4: busy twice, then a
success. -/
def busyTwiceOp : Nat → Except JsError Nat
  | 0 => .error (JsError.mk (some "TransportLocked") none "busy")
  | 1 => .error (JsError.mk (some "TransportLocked") none "busy")
  | _ => .ok 42

theorem claim4_retry_busy_bounded_witness :
    retry (α := Nat) none busyTwiceOp = .success 42 3 2 := by
  have h := (claim4_retry_busy_bounded (α := Nat) none busyTwiceOp).1 2 42
    (by unfold RETRY_ATTEMPTS; omega)
    (by
      intro j hj
      interval_cases j
      · exact ⟨JsError.mk (some "TransportLocked") none "busy", rfl, rfl, rfl⟩
      · exact ⟨JsError.mk (some "TransportLocked") none "busy", rfl, rfl, rfl⟩)
    rfl
  exact h

/-- Claim C5: for every operation passed to the retry executor, on the first
attempt that fails with a non-busy error (after any prefix of busy attempts),
`execute` propagates that error immediately — no further attempt, no further
pause; and if the caller-supplied error hook itself throws on any failed
attempt, the hook's error propagates immediately, even when the underlying
error was the busy sentinel. -/
theorem claim5_retry_fail_fast {α : Type}
    (hook : Option (JsError → Except JsError Unit)) (op : Nat → Except JsError α) :
    (∀ k e, k < RETRY_ATTEMPTS → (∀ j, j < k → busyOk hook op j) →
        op k = .error e → runHook hook e = .ok () → e.id ≠ some "TransportLocked" →
        retry hook op = .failure e (k + 1) k)
    ∧ (∀ k e e2, k < RETRY_ATTEMPTS → (∀ j, j < k → busyOk hook op j) →
        op k = .error e → runHook hook e = .error e2 →
        retry hook op = .failure e2 (k + 1) k) := by
  constructor
  · intro k e hk hb herr hh hid
    unfold retry
    rw [retryLoop_busy_skip k 0 RETRY_ATTEMPTS 0 (Nat.le_of_lt hk)
      (by intro j hj; simpa using hb j hj)]
    have hrem : RETRY_ATTEMPTS - k = (RETRY_ATTEMPTS - k - 1) + 1 := by
      unfold RETRY_ATTEMPTS at hk ⊢; omega
    rw [hrem]
    rw [show (0 : Nat) + k = k by omega] at *
    rw [retryLoop_nonbusy herr hh hid]
  · intro k e e2 hk hb herr hh
    unfold retry
    rw [retryLoop_busy_skip k 0 RETRY_ATTEMPTS 0 (Nat.le_of_lt hk)
      (by intro j hj; simpa using hb j hj)]
    have hrem : RETRY_ATTEMPTS - k = (RETRY_ATTEMPTS - k - 1) + 1 := by
      unfold RETRY_ATTEMPTS at hk ⊢; omega
    rw [hrem]
    rw [show (0 : Nat) + k = k by omega] at *
    rw [retryLoop_hookThrow herr hh]

/-- A concrete operation for the witness of claim C5: a non-busy error on the
very first attempt. -/
def rejectOp : Nat → Except JsError Nat
  | _ => .error (JsError.mk none (some 27013) "user rejected")

theorem claim5_retry_fail_fast_witness :
    retry (α := Nat) none rejectOp
      = .failure (JsError.mk none (some 27013) "user rejected") 1 0 := by
  have h := (claim5_retry_fail_fast (α := Nat) none rejectOp).1 0
    (JsError.mk none (some 27013) "user rejected")
    (by unfold RETRY_ATTEMPTS; omega)
    (by intro j hj; omega)
    rfl rfl (by simp)
  exact h

/-! ### The BIP32 path parser

Embedding of `parseBip32Path` (`src/common/src/index.ts` lines 24-52).
Strings are modelled as lists of characters; all inputs of interest are
ASCII.  The JavaScript converts the digit segment with `+m1` to a double and
then checks `!Number.isSafeInteger(idx) || idx >= HARDENED_OFFSET`; since any
digit string whose exact value is below `2^31` converts exactly and is safe,
and any value at or above `2^31` stays at or above `2^31` after rounding, the
check is modelled on the exact numeric value of the digits. -/

def HARDENED_OFFSET : Nat := 0x80000000

/-- `Number.MAX_SAFE_INTEGER`. -/
def maxSafeInteger : Nat := 2 ^ 53 - 1

structure Bip32Path where
  /-- Ledger-friendly path string without a leading root marker. -/
  normalized : List Char
  /-- Indices with the hardened offset applied. -/
  indices : List Nat
deriving DecidableEq, Repr

/-- The three distinct errors thrown by `parseBip32Path`. -/
inductive PathError where
  /-- `Path must start with "m"` -/
  | mustStartWithM
  /-- `Invalid child index: ${segment}` -/
  | invalidChildIndex (segment : List Char)
  /-- `Node index out of range` -/
  | nodeIndexOutOfRange
deriving DecidableEq, Repr

/-- JavaScript `normalized.split('/')`: split on the separator, keeping empty
segments; the empty string yields one empty segment. -/
def splitSlash : List Char → List (List Char)
  | [] => [[]]
  | c :: rest =>
    match splitSlash rest with
    | [] => [[]]
    | s :: ss => if c = '/' then [] :: s :: ss else (c :: s) :: ss

/-- Numeric value of a decimal digit string. -/
def digitsVal (ds : List Char) : Nat :=
  ds.foldl (fun a c => a * 10 + (c.toNat - '0'.toNat)) 0

/-- The segment regular expression `^(\d+)('?)$`: one or more decimal digits
optionally followed by a single apostrophe.  Returns the digits and whether
the hardened marker is present. -/
def matchSegment (s : List Char) : Option (List Char × Bool) :=
  let digits := s.takeWhile (fun c => c.isDigit)
  let rest := s.dropWhile (fun c => c.isDigit)
  if digits = [] then none
  else if rest = [] then some (digits, false)
  else if rest = ['\''] then some (digits, true)
  else none

/-- The body of the `parts.map` callback: validate one segment and produce
its index, with the hardened offset applied when the apostrophe is present. -/
def parseSegment (s : List Char) : Except PathError Nat :=
  match matchSegment s with
  | none => .error (.invalidChildIndex s)
  | some (digits, hardened) =>
    let idx := digitsVal digits
    if maxSafeInteger < idx ∨ HARDENED_OFFSET ≤ idx then .error .nodeIndexOutOfRange
    else .ok (if hardened then idx + HARDENED_OFFSET else idx)

/-- `path.replace(/^m\//, '')`: remove a leading `m/` when present. -/
def stripMSlash (path : List Char) : List Char :=
  match path with
  | c1 :: c2 :: t => if c1 = 'm' ∧ c2 = '/' then t else path
  | _ => path

/-- JavaScript `parts.map(...)` where the callback may throw: the first
thrown error aborts the whole map. -/
def mapSegments {ε : Type} (f : List Char → Except ε Nat) :
    List (List Char) → Except ε (List Nat)
  | [] => .ok []
  | s :: rest =>
    match f s with
    | .error e => .error e
    | .ok i =>
      match mapSegments f rest with
      | .error e => .error e
      | .ok idxs => .ok (i :: idxs)

/-- Embedding of `parseBip32Path`.  The root-marker test `/^m/` and the
exact-root test `/^m$/` are the two leading conditionals. -/
def parseBip32Path (path : List Char) : Except PathError Bip32Path :=
  match path with
  | [] => .error .mustStartWithM
  | c :: rest =>
    if c = 'm' then
      if rest = [] then .ok (Bip32Path.mk [] [])
      else
        let normalized := stripMSlash (c :: rest)
        match mapSegments parseSegment (splitSlash normalized) with
        | .ok indices => .ok (Bip32Path.mk normalized indices)
        | .error e => .error e
    else .error .mustStartWithM

/-! ### The reference parser written from the specification's words

For claim C7 a second definition follows the claim's description of the
parser, with the two-error taxonomy of the specification
(`InvalidPathFormat` / `IndexOutOfRange`).  The code's three thrown errors
map onto it. -/

inductive SpecPathError where
  | invalidPathFormat
  | indexOutOfRange
deriving DecidableEq, Repr

/-- Map the code's errors to the specification's taxonomy: both the missing
root marker and a malformed segment are invalid-path errors. -/
def abstractPathError : PathError → SpecPathError
  | .mustStartWithM => .invalidPathFormat
  | .invalidChildIndex _ => .invalidPathFormat
  | .nodeIndexOutOfRange => .indexOutOfRange

def exceptMapErr {ε ε' α : Type} (f : ε → ε') : Except ε α → Except ε' α
  | .ok a => .ok a
  | .error e => .error (f e)

/-- Reference segment rule, following the claim's words: one or more decimal
digits optionally followed by a single apostrophe; the digits' value must be
a safe integer strictly below `0x80000000`; an apostrophe adds
`0x80000000`. -/
def specSegment (s : List Char) : Except SpecPathError Nat :=
  match matchSegment s with
  | none => .error .invalidPathFormat
  | some (digits, hardened) =>
    let idx := digitsVal digits
    if idx ≤ maxSafeInteger ∧ idx < HARDENED_OFFSET then
      .ok (if hardened then idx + HARDENED_OFFSET else idx)
    else .error .indexOutOfRange

/-- Reference parser, following the claim's words: fail when the input does
not begin with `m`; empty result on exactly `"m"`; otherwise strip a leading
`"m/"`, split the remainder on `'/'`, and validate every segment; the
normalized field is the input with the leading `"m/"` removed. -/
def parseBip32PathSpec (path : List Char) : Except SpecPathError Bip32Path :=
  if path.head? ≠ some 'm' then .error .invalidPathFormat
  else if path = ['m'] then .ok (Bip32Path.mk [] [])
  else
    let normalized := stripMSlash path
    match mapSegments specSegment (splitSlash normalized) with
    | .ok indices => .ok (Bip32Path.mk normalized indices)
    | .error e => .error e

lemma specSegment_eq (s : List Char) :
    exceptMapErr abstractPathError (parseSegment s) = specSegment s := by
  simp only [parseSegment, specSegment]
  cases matchSegment s with
  | none => rfl
  | some dh =>
    obtain ⟨digits, hardened⟩ := dh
    by_cases hc : digitsVal digits ≤ maxSafeInteger ∧ digitsVal digits < HARDENED_OFFSET
    · have hq : ¬(maxSafeInteger < digitsVal digits ∨ HARDENED_OFFSET ≤ digitsVal digits) := by
        omega
      simp [hc, hq, exceptMapErr]
    · have hq : maxSafeInteger < digitsVal digits ∨ HARDENED_OFFSET ≤ digitsVal digits := by
        omega
      simp [hc, hq, exceptMapErr, abstractPathError]

lemma specSegment_map_eq (l : List (List Char)) :
    exceptMapErr abstractPathError (mapSegments parseSegment l)
      = mapSegments specSegment l := by
  induction l with
  | nil => rfl
  | cons x l ih =>
    simp only [mapSegments]
    rw [← specSegment_eq x, ← ih]
    cases hx : parseSegment x with
    | error e => rfl
    | ok i =>
      cases hl : mapSegments parseSegment l with
      | error e2 => rfl
      | ok idxs => rfl

/-- Claim C7: `parseBip32Path` coincides with the reference parser written
from the claim's description, after mapping the code's thrown errors onto
the specification's two-error taxonomy. -/
theorem claim7_parse_matches_reference (path : List Char) :
    exceptMapErr abstractPathError (parseBip32Path path) = parseBip32PathSpec path := by
  cases path with
  | nil => rfl
  | cons c rest =>
    by_cases hc : c = 'm'
    · subst hc
      cases rest with
      | nil => rfl
      | cons c2 t =>
        simp only [parseBip32Path, parseBip32PathSpec]
        rw [if_pos trivial]
        rw [if_neg (show ¬(c2 :: t = []) by simp)]
        rw [if_neg (show ¬(('m' :: c2 :: t).head? ≠ some 'm') by simp [List.head?])]
        rw [if_neg (show ¬('m' :: c2 :: t = ['m']) by simp)]
        cases hm : mapSegments parseSegment (splitSlash (stripMSlash ('m' :: c2 :: t))) with
        | ok indices =>
          have h2 := specSegment_map_eq (splitSlash (stripMSlash ('m' :: c2 :: t)))
          rw [hm] at h2
          rw [← h2]
          rfl
        | error e =>
          have h2 := specSegment_map_eq (splitSlash (stripMSlash ('m' :: c2 :: t)))
          rw [hm] at h2
          rw [← h2]
          rfl
    · simp only [parseBip32Path, parseBip32PathSpec]
      rw [if_neg hc, if_pos (by simp [List.head?, hc])]
      rfl

/-! ### Claim C2: re-parsing the normalized output

The normalized string omits the leading root marker, but `parseBip32Path`
rejects every input that does not begin with `m`; so the parser is not
idempotent on its own normalized output.  Re-prefixing `"m/"` recovers the
same indices. -/

deriving instance DecidableEq for Except

lemma splitSlash_ne_nil (l : List Char) : splitSlash l ≠ [] := by
  cases l with
  | nil => simp [splitSlash]
  | cons c rest =>
    simp only [splitSlash]
    cases splitSlash rest with
    | nil => simp
    | cons s ss =>
      by_cases hc : c = '/' <;> simp [hc]

/-- A successful parse with a nonempty normalized string determines the
segment map of the normalized string. -/
lemma parse_ok_segments (p : List Char) (normalized : List Char) (indices : List Nat)
    (h : parseBip32Path p = .ok (Bip32Path.mk normalized indices))
    (hne : normalized ≠ []) :
    mapSegments parseSegment (splitSlash normalized) = .ok indices := by
  cases p with
  | nil => simp [parseBip32Path] at h
  | cons c rest =>
    by_cases hc : c = 'm'
    · subst hc
      cases rest with
      | nil =>
        simp only [parseBip32Path, if_pos, if_neg] at h
        simp at h
        exact absurd h.1 hne
      | cons c2 t =>
        simp only [parseBip32Path] at h
        rw [if_pos trivial] at h
        rw [if_neg (show ¬(c2 :: t = []) by simp)] at h
        cases hm : mapSegments parseSegment (splitSlash (stripMSlash ('m' :: c2 :: t))) with
        | error e => rw [hm] at h; simp at h
        | ok idxs =>
          rw [hm] at h
          simp only [Except.ok.injEq, Bip32Path.mk.injEq] at h
          obtain ⟨hN, hI⟩ := h
          rw [← hN, ← hI]
          exact hm
    · simp [parseBip32Path, hc] at h

/-- If the segment map of `c :: t` succeeds, then `c` is a decimal digit (in
particular not `'m'` and not `'/'`). -/
lemma parse_segments_head_digit (c : Char) (t : List Char) (idxs : List Nat)
    (h : mapSegments parseSegment (splitSlash (c :: t)) = .ok idxs) :
    c.isDigit = true := by
  cases hs : splitSlash t with
  | nil => exact absurd hs (splitSlash_ne_nil t)
  | cons s ss =>
    have hsplit : splitSlash (c :: t) = if c = '/' then [] :: s :: ss else (c :: s) :: ss := by
      simp [splitSlash, hs]
    rw [hsplit] at h
    by_cases hc : c = '/'
    · rw [if_pos hc] at h
      simp [mapSegments, parseSegment, matchSegment] at h
    · rw [if_neg hc] at h
      simp only [mapSegments] at h
      cases hcd : c.isDigit with
      | true => rfl
      | false =>
        exfalso
        have hseg : parseSegment (c :: s) = .error (.invalidChildIndex (c :: s)) := by
          simp [parseSegment, matchSegment, List.takeWhile_cons, hcd]
        rw [hseg] at h
        simp at h

/-- Claim C2 (amended): for every valid path `p`, the normalized output does
not carry the root marker, so re-parsing the normalized string itself fails
with the root-marker error; re-parsing with an `"m/"` prefix restored yields
exactly the same normalized string and indices. -/
theorem claim2_amended_reparse (p : List Char) (r : Bip32Path)
    (h : parseBip32Path p = .ok r) (hne : r.normalized ≠ []) :
    parseBip32Path r.normalized = .error .mustStartWithM
    ∧ parseBip32Path ('m' :: '/' :: r.normalized) = .ok r := by
  obtain ⟨N, idxs⟩ := r
  simp only at hne ⊢
  have hm := parse_ok_segments p N idxs h hne
  cases hN : N with
  | nil => exact absurd hN hne
  | cons c t =>
    rw [hN] at hm
    subst hN
    have hd := parse_segments_head_digit c t idxs hm
    constructor
    · have hcm : ¬(c = 'm') := by
        intro hcm
        rw [hcm] at hd
        exact absurd hd (by decide)
      simp [parseBip32Path, hcm]
    · simp only [parseBip32Path]
      rw [if_pos trivial]
      rw [if_neg (show ¬('/' :: c :: t = []) by simp)]
      have hstrip : stripMSlash ('m' :: '/' :: c :: t) = c :: t := by
        simp [stripMSlash]
      rw [hstrip, hm]

theorem claim2_amended_reparse_witness :
    parseBip32Path ['5'] = .error .mustStartWithM
    ∧ parseBip32Path ['m', '/', '5'] = .ok (Bip32Path.mk ['5'] [5]) :=
  claim2_amended_reparse ['m', '/', '5'] (Bip32Path.mk ['5'] [5]) (by decide) (by decide)

/-- Claim C2 counterexample: `parseBip32Path "m/0"` succeeds with normalized
output `"0"`, but parsing that normalized output fails with the root-marker
error — so parsing the normalized form does fail, contradicting the claim. -/
theorem claim2_counterexample :
    parseBip32Path ['m', '/', '0'] = .ok (Bip32Path.mk ['0'] [0])
    ∧ parseBip32Path ['0'] = .error .mustStartWithM := by
  constructor
  · decide
  · decide

/-! ### The typed-data signing protocol

Embedding of `LedgerSigner.signTypedData`:

```
const populated = await TypedDataEncoder.resolveNames(domain, types, value, ...);
const payload = TypedDataEncoder.getPayload(populated.domain, types, populated.value);
let sig;
try {
    sig = await LedgerSigner.retry((eth) => eth.signEIP712Message(this.path, payload));
} catch (error) {
    if ((error as any)?.statusCode !== 27904) throw error;
    const domainHash = TypedDataEncoder.hashDomain(domain);
    const valueHash = TypedDataEncoder.from(types).hash(value);
    sig = await LedgerSigner.retry((eth) =>
        eth.signEIP712HashedMessage(this.path, domainHash.substring(2), valueHash.substring(2)));
}
sig.r = "0x" + sig.r;
sig.s = "0x" + sig.s;
return Signature.from(sig).serialized;
```

Domains, type schemas, values, payloads and hashes are opaque to this code;
they are type parameters, and the ethers encoder operations together with the
retry-wrapped device calls are supplied as an environment.  The model also
returns the list of device calls made, so that "the fallback is invoked" is
observable. -/

/-- The signature shape `{ r, s, v }` used by `signTypedData`. -/
structure EthSig where
  r : String
  s : String
  v : Nat
deriving DecidableEq, Repr

/-- `sig.r = "0x" + sig.r; sig.s = "0x" + sig.s;` -/
def normalizeSig (sig : EthSig) : EthSig :=
  EthSig.mk ("0x" ++ sig.r) ("0x" ++ sig.s) sig.v

/-- External collaborators of `signTypedData`: the ethers `TypedDataEncoder`
operations and the two retry-wrapped device signing calls. -/
structure TypedDataEnv (Domain Types Value Payload Hash : Type) where
  /-- `TypedDataEncoder.resolveNames`: returns the populated domain/value. -/
  resolveNames : Domain → Types → Value → Domain × Value
  /-- `TypedDataEncoder.getPayload`. -/
  getPayload : Domain → Types → Value → Payload
  /-- `TypedDataEncoder.hashDomain`. -/
  hashDomain : Domain → Hash
  /-- `TypedDataEncoder.from(types).hash(value)`. -/
  hashStruct : Types → Value → Hash
  /-- The retry-wrapped `eth.signEIP712Message` call. -/
  signEIP712Message : Payload → Except JsError EthSig
  /-- The retry-wrapped `eth.signEIP712HashedMessage` call. -/
  signEIP712HashedMessage : Hash → Hash → Except JsError EthSig

/-- A device signing call made by `signTypedData`. -/
inductive TdCall (Payload Hash : Type) where
  | direct (payload : Payload)
  | hashedMessage (domainHash valueHash : Hash)

/-- The payload submitted on the direct path: built from the ENS-resolved
`populated.domain` and `populated.value`. -/
def directPayload {D T V P H : Type} (env : TypedDataEnv D T V P H)
    (domain : D) (types : T) (value : V) : P :=
  env.getPayload (env.resolveNames domain types value).1 types
    (env.resolveNames domain types value).2

/-- Embedding of the `signTypedData` control flow, returning the result and
the device calls in order. -/
def signTypedData {D T V P H : Type} (env : TypedDataEnv D T V P H)
    (domain : D) (types : T) (value : V) :
    Except JsError EthSig × List (TdCall P H) :=
  let payload := directPayload env domain types value
  match env.signEIP712Message payload with
  | .ok sig => (.ok (normalizeSig sig), [.direct payload])
  | .error e =>
    if e.statusCode = some 27904 then
      let domainHash := env.hashDomain domain
      let valueHash := env.hashStruct types value
      match env.signEIP712HashedMessage domainHash valueHash with
      | .ok sig =>
        (.ok (normalizeSig sig), [.direct payload, .hashedMessage domainHash valueHash])
      | .error e2 =>
        (.error e2, [.direct payload, .hashedMessage domainHash valueHash])
    else (.error e, [.direct payload])

/-- Whether a device call is the hashed-message fallback call. -/
def isHashedMessage {P H : Type} : TdCall P H → Bool
  | .hashedMessage _ _ => true
  | _ => false

/-- Claim C3: the fallback path is taken if and only if the direct
structured-data signing call fails with status code 27904; when it is taken,
the hashed-message operation is invoked with the domain hash and the value
hash; a direct-path failure with any other status code propagates without
the fallback being invoked. -/
theorem claim3_fallback_iff_27904 {D T V P H : Type}
    (env : TypedDataEnv D T V P H) (domain : D) (types : T) (value : V) :
    (((signTypedData env domain types value).2.any isHashedMessage = true) ↔
      (∃ e, env.signEIP712Message (directPayload env domain types value) = .error e
        ∧ e.statusCode = some 27904))
    ∧ (∀ e, env.signEIP712Message (directPayload env domain types value) = .error e →
        e.statusCode = some 27904 →
        (signTypedData env domain types value).2 =
          [.direct (directPayload env domain types value),
           .hashedMessage (env.hashDomain domain) (env.hashStruct types value)])
    ∧ (∀ e, env.signEIP712Message (directPayload env domain types value) = .error e →
        e.statusCode ≠ some 27904 →
        (signTypedData env domain types value).1 = .error e
        ∧ (signTypedData env domain types value).2 =
            [.direct (directPayload env domain types value)]) := by
  cases hd : env.signEIP712Message (directPayload env domain types value) with
  | ok sig =>
    refine ⟨⟨fun hmem => ?_, fun hex => ?_⟩, fun e he _ => ?_, fun e he _ => ?_⟩
    · exfalso
      simp only [signTypedData, hd] at hmem
      simp [isHashedMessage] at hmem
    · obtain ⟨e, he, _⟩ := hex
      exact absurd he (by simp)
    · exact absurd he (by simp)
    · exact absurd he (by simp)
  | error e0 =>
    by_cases hsc : e0.statusCode = some 27904
    · refine ⟨⟨fun _ => ⟨e0, rfl, hsc⟩, fun _ => ?_⟩, fun e he _ => ?_, fun e he hne => ?_⟩
      · simp only [signTypedData, hd]
        rw [if_pos hsc]
        cases env.signEIP712HashedMessage (env.hashDomain domain) (env.hashStruct types value) with
        | ok s2 => simp [isHashedMessage]
        | error e2 => simp [isHashedMessage]
      · simp only [signTypedData, hd]
        rw [if_pos hsc]
        cases env.signEIP712HashedMessage (env.hashDomain domain) (env.hashStruct types value) with
        | ok s2 => rfl
        | error e2 => rfl
      · injection he with he
        subst he
        exact absurd hsc hne
    · refine ⟨⟨fun hmem => ?_, fun hex => ?_⟩, fun e he hsc2 => ?_, fun e he _ => ?_⟩
      · exfalso
        simp only [signTypedData, hd] at hmem
        rw [if_neg hsc] at hmem
        simp [isHashedMessage] at hmem
      · obtain ⟨e, he, hsc2⟩ := hex
        injection he with he
        subst he
        exact absurd hsc2 hsc
      · injection he with he
        subst he
        exact absurd hsc2 hsc
      · injection he with he
        subst he
        constructor
        · simp only [signTypedData, hd]
          rw [if_neg hsc]
        · simp only [signTypedData, hd]
          rw [if_neg hsc]

/-- A concrete environment for the witness of claim C3: the direct call is
stubbed to fail with status 27904 and the hashed-message call succeeds. -/
def tdEnvUnsupported : TypedDataEnv Unit Unit Unit Nat Nat :=
  TypedDataEnv.mk (fun _ _ _ => ((), ())) (fun _ _ _ => 0) (fun _ => 1) (fun _ _ => 2)
    (fun _ => .error (JsError.mk none (some 27904) "unsupported"))
    (fun _ _ => .ok (EthSig.mk "aa" "bb" 27))

theorem claim3_fallback_iff_27904_witness :
    (signTypedData tdEnvUnsupported () () ()).2 = [.direct 0, .hashedMessage 1 2] :=
  (claim3_fallback_iff_27904 tdEnvUnsupported () () ()).2.1
    (JsError.mk none (some 27904) "unsupported") rfl rfl

/-! ### Claim C10: the two paths sign different content

The direct path builds its payload from the ENS-resolved `populated.domain`
and `populated.value`; the fallback hashes the original, unresolved `domain`
and `value` arguments.  The signed content of each path is the
(domain, value) pair fed to the respective encoder operation. -/

/-- The (domain, value) pair the direct path feeds to `getPayload`: the
output of `resolveNames`. -/
def directSignedContent {D T V P H : Type} (env : TypedDataEnv D T V P H)
    (domain : D) (types : T) (value : V) : D × V :=
  env.resolveNames domain types value

/-- The (domain, value) pair the fallback path feeds to the hash
operations: the original arguments. -/
def fallbackSignedContent {D V : Type} (domain : D) (value : V) : D × V :=
  (domain, value)

/-- Claim C10: the direct path submits the payload built from the resolved
content while any fallback call hashes the original content; the two paths
sign the same content exactly when name resolution leaves domain and value
unchanged; and there is an input (where resolution alters the domain) on
which the two paths sign different content. -/
theorem claim10_fallback_unresolved_content :
    (∀ {D T V P H : Type} (env : TypedDataEnv D T V P H) (domain : D) (types : T) (value : V),
      (signTypedData env domain types value).2.head? =
        some (.direct (env.getPayload (directSignedContent env domain types value).1 types
          (directSignedContent env domain types value).2))
      ∧ (∀ dh vh, TdCall.hashedMessage dh vh ∈ (signTypedData env domain types value).2 →
          dh = env.hashDomain (fallbackSignedContent domain value).1
          ∧ vh = env.hashStruct types (fallbackSignedContent domain value).2)
      ∧ (directSignedContent env domain types value = fallbackSignedContent domain value ↔
          env.resolveNames domain types value = (domain, value)))
    ∧ (∃ env : TypedDataEnv Nat Unit Nat (Nat × Nat) Nat, ∃ domain types value,
        env.resolveNames domain types value ≠ (domain, value)
        ∧ directSignedContent env domain types value ≠ fallbackSignedContent domain value) := by
  constructor
  · intro D T V P H env domain types value
    refine ⟨?_, ?_, Iff.rfl⟩
    · cases hd : env.signEIP712Message (directPayload env domain types value) with
      | ok sig => simp only [signTypedData, hd]; rfl
      | error e0 =>
        by_cases hsc : e0.statusCode = some 27904
        · simp only [signTypedData, hd]
          rw [if_pos hsc]
          cases env.signEIP712HashedMessage (env.hashDomain domain) (env.hashStruct types value) with
          | ok s2 => rfl
          | error e2 => rfl
        · simp only [signTypedData, hd]
          rw [if_neg hsc]
          rfl
    · intro dh vh hmem
      cases hd : env.signEIP712Message (directPayload env domain types value) with
      | ok sig =>
        simp only [signTypedData, hd] at hmem
        simp at hmem
      | error e0 =>
        by_cases hsc : e0.statusCode = some 27904
        · simp only [signTypedData, hd] at hmem
          rw [if_pos hsc] at hmem
          cases hh2 : env.signEIP712HashedMessage (env.hashDomain domain) (env.hashStruct types value) with
          | ok s2 =>
            rw [hh2] at hmem
            simp at hmem
            exact hmem
          | error e2 =>
            rw [hh2] at hmem
            simp at hmem
            exact hmem
        · simp only [signTypedData, hd] at hmem
          rw [if_neg hsc] at hmem
          simp at hmem
  · refine ⟨TypedDataEnv.mk (fun d _ v => (d + 1, v)) (fun d _ v => (d, v)) (fun d => d)
      (fun _ v => v) (fun _ => .error (JsError.mk none (some 27904) "unsupported"))
      (fun _ _ => .ok (EthSig.mk "" "" 0)), 0, (), 0, ?_, ?_⟩
    · simp
    · simp [directSignedContent, fallbackSignedContent]

/-- A concrete environment where name resolution is the identity. -/
def tdEnvId : TypedDataEnv Unit Unit Unit Nat Nat :=
  TypedDataEnv.mk (fun _ _ _ => ((), ())) (fun _ _ _ => 0) (fun _ => 1) (fun _ _ => 2)
    (fun _ => .ok (EthSig.mk "aa" "bb" 27)) (fun _ _ => .ok (EthSig.mk "aa" "bb" 27))

/-- Witness for claim C10 at a concrete environment: resolution is the
identity here, so the two contents agree. -/
theorem claim10_fallback_unresolved_content_witness :
    directSignedContent tdEnvId () () () = fallbackSignedContent () () ↔
      tdEnvId.resolveNames () () () = ((), ()) :=
  (claim10_fallback_unresolved_content.1 tdEnvId () () ()).2.2

/-! ### The address cache

Embedding of `LedgerSigner.getAddress`:

```
const cachedAddress = addressCache[this.path];
if (cachedAddress !== undefined) return cachedAddress;
const account = await LedgerSigner.retry((eth) => eth.getAddress(this.path));
const address = (addressCache[this.path] = getAddress(account.address));
return address;
```

The signer's `this.path` was normalized by `parseBip32Path` in `create`, so
the cache key is the normalized path string.  The device round trip (the
retry-wrapped `eth.getAddress`) is modelled as `dev`, the ethers checksum
normalization (the ethers `getAddress` function) as `checksum`; a ghost
counter records how many device round trips were made. -/

structure AddrCacheState where
  /-- `addressCache`, a record keyed by path strings. -/
  cache : String → Option String
  /-- Ghost counter: device round trips performed so far. -/
  deviceCalls : Nat

def getAddressImpl (dev : String → String) (checksum : String → String)
    (path : String) (st : AddrCacheState) : String × AddrCacheState :=
  match st.cache path with
  | some a => (a, st)
  | none =>
    let addr := checksum (dev path)
    (addr,
     AddrCacheState.mk (fun p => if p = path then some addr else st.cache p)
       (st.deviceCalls + 1))

/-- Claim C8: two sequential `getAddress` calls for the same path invoke the
device derivation at most once — the second call returns the same address
and leaves the state unchanged (no device round trip), and a first call on a
cold cache performs exactly one device round trip and stores the
checksummed result keyed by the (normalized) path string. -/
theorem claim8_address_cache (dev checksum : String → String) (path : String)
    (st : AddrCacheState) :
    (getAddressImpl dev checksum path (getAddressImpl dev checksum path st).2
        = getAddressImpl dev checksum path st)
    ∧ ((getAddressImpl dev checksum path st).2.deviceCalls ≤ st.deviceCalls + 1)
    ∧ (st.cache path = none →
        (getAddressImpl dev checksum path st).2.deviceCalls = st.deviceCalls + 1
        ∧ (getAddressImpl dev checksum path st).1 = checksum (dev path)
        ∧ (getAddressImpl dev checksum path st).2.cache path
            = some (checksum (dev path))) := by
  cases hc : st.cache path with
  | some a =>
    refine ⟨?_, ?_, fun hn => ?_⟩
    · simp [getAddressImpl, hc]
    · simp [getAddressImpl, hc]
    · exact absurd hn (by simp)
  | none =>
    refine ⟨?_, ?_, fun _ => ?_⟩
    · simp [getAddressImpl, hc]
    · simp [getAddressImpl, hc]
    · simp [getAddressImpl, hc]

/-- An empty cache for the witness of claim C8. -/
def emptyAddrCache : AddrCacheState := AddrCacheState.mk (fun _ => none) 0

theorem claim8_address_cache_witness :
    (getAddressImpl (fun _ => "ab") (fun s => "0x" ++ s) "0'" emptyAddrCache).2.deviceCalls
        = emptyAddrCache.deviceCalls + 1
    ∧ (getAddressImpl (fun _ => "ab") (fun s => "0x" ++ s) "0'" emptyAddrCache).1
        = "0x" ++ "ab"
    ∧ (getAddressImpl (fun _ => "ab") (fun s => "0x" ++ s) "0'" emptyAddrCache).2.cache "0'"
        = some ("0x" ++ "ab") :=
  (claim8_address_cache (fun _ => "ab") (fun s => "0x" ++ s) "0'" emptyAddrCache).2.2 rfl

/-! ### The lazy session-creation protocol

Embedding of `LedgerSigner.create` (and the structurally identical
`SolanaLedgerSigner.create`):

```
public static async create(provider, path = defaultPath) {
    path = parseBip32Path(path).normalized;
    if (!createEthApp) {
        createEthApp = true;
        const transport = await Transport.open(undefined);
        this.app = new Eth(transport);
        // Check that the connection is working
        await this.app.getAppConfiguration();
    } else if (this.app === undefined) {
        for (let i = 0; i < 1200; i++) {
            await sleep(100);
            if (this.app !== undefined) break;
            if (i === 1199) { throw new Error("Timed out while waiting for transport to open."); }
        }
    }
    return new LedgerSigner(provider, this.app, path);
}
```

JavaScript is cooperatively scheduled: code between `await` points runs
atomically.  The model is a small-step transition system whose steps are
exactly those atomic blocks, interleaved over arbitrarily many concurrent
callers.  Handles are identified by natural numbers.  `openCount` counts
`Transport.open` invocations and `stage` records the initializer's progress;
both are ghost fields used only to state properties, never read by steps. -/

/-- Ghost record of the single initializer's progress. -/
inductive InitStage where
  | notStarted
  | opening
  | checking
  | ready
  | openFailed
  | configFailed
deriving DecidableEq, Repr

/-- The module-level shared state: `createEthApp` and `LedgerSigner.app`. -/
structure GState where
  createFlag : Bool
  app : Option Nat
  openCount : Nat
  stage : InitStage
deriving DecidableEq, Repr

/-- The program counter of one `create` caller, positioned at its `await`
points. -/
inductive CState where
  /-- About to run `create` from the top. -/
  | start
  /-- Set the flag, now awaiting `Transport.open`. -/
  | opening
  /-- Assigned `this.app = new Eth(transport)`, awaiting
  `getAppConfiguration()`. -/
  | checking (h : Nat)
  /-- Inside the poll loop, about to sleep for iteration `n`. -/
  | polling (n : Nat)
  /-- Returned a signer holding handle `h`. -/
  | done (h : Nat)
  /-- `Transport.open` rejected. -/
  | failedOpen
  /-- `getAppConfiguration()` rejected. -/
  | failedConfig
  /-- Threw "Timed out while waiting for transport to open." -/
  | failedTimeout
deriving DecidableEq, Repr

/-- A configuration: the shared state plus every caller's state. -/
structure Config where
  g : GState
  cs : Nat → CState

/-- Update one caller's state. -/
def setC (cs : Nat → CState) (i : Nat) (st : CState) : Nat → CState :=
  fun k => if k = i then st else cs k

/-- The interleaving semantics of `create`: one constructor per atomic block
between `await` points, for the caller at index `i`. -/
inductive Step : Config → Config → Prop where
  /-- `!createEthApp`: atomically set the flag and invoke
  `Transport.open` (the caller suspends on its promise). -/
  | startFirst (c : Config) (i : Nat)
      (hc : c.cs i = .start) (hf : c.g.createFlag = false) :
      Step c (Config.mk
        (GState.mk true c.g.app (c.g.openCount + 1) .opening)
        (setC c.cs i .opening))
  /-- Flag already set and `this.app !== undefined`: return the shared
  handle immediately. -/
  | startReady (c : Config) (i h : Nat)
      (hc : c.cs i = .start) (hf : c.g.createFlag = true) (ha : c.g.app = some h) :
      Step c (Config.mk c.g (setC c.cs i (.done h)))
  /-- Flag set but `this.app === undefined`: enter the poll loop. -/
  | startPoll (c : Config) (i : Nat)
      (hc : c.cs i = .start) (hf : c.g.createFlag = true) (ha : c.g.app = none) :
      Step c (Config.mk c.g (setC c.cs i (.polling 0)))
  /-- `Transport.open` resolved with a transport: assign
  `this.app = new Eth(transport)` — publishing the handle — and invoke
  `getAppConfiguration()` (the caller suspends on its promise). -/
  | openOk (c : Config) (i h : Nat)
      (hc : c.cs i = .opening) :
      Step c (Config.mk
        (GState.mk c.g.createFlag (some h) c.g.openCount .checking)
        (setC c.cs i (.checking h)))
  /-- `Transport.open` rejected: `create` throws; the flag stays set and the
  handle stays unpublished. -/
  | openFail (c : Config) (i : Nat)
      (hc : c.cs i = .opening) :
      Step c (Config.mk
        (GState.mk c.g.createFlag c.g.app c.g.openCount .openFailed)
        (setC c.cs i .failedOpen))
  /-- `getAppConfiguration()` resolved: the initializer returns
  `this.app`. -/
  | configOk (c : Config) (i h h2 : Nat)
      (hc : c.cs i = .checking h) (ha : c.g.app = some h2) :
      Step c (Config.mk
        (GState.mk c.g.createFlag c.g.app c.g.openCount .ready)
        (setC c.cs i (.done h2)))
  /-- `getAppConfiguration()` rejected: the initializer throws, but the
  handle stays published. -/
  | configFail (c : Config) (i h : Nat)
      (hc : c.cs i = .checking h) :
      Step c (Config.mk
        (GState.mk c.g.createFlag c.g.app c.g.openCount .configFailed)
        (setC c.cs i .failedConfig))
  /-- A poll sleep elapsed and `this.app !== undefined`: break out of the
  loop and return the shared handle. -/
  | pollFound (c : Config) (i n h : Nat)
      (hc : c.cs i = .polling n) (ha : c.g.app = some h) :
      Step c (Config.mk c.g (setC c.cs i (.done h)))
  /-- A poll sleep elapsed, `this.app === undefined`, not the last
  iteration: keep polling. -/
  | pollAgain (c : Config) (i n : Nat)
      (hc : c.cs i = .polling n) (ha : c.g.app = none) (hn : n ≠ 1199) :
      Step c (Config.mk c.g (setC c.cs i (.polling (n + 1))))
  /-- The 1200th poll sleep elapsed with `this.app === undefined`: throw the
  transport-open timeout. -/
  | pollTimeout (c : Config) (i : Nat)
      (hc : c.cs i = .polling 1199) (ha : c.g.app = none) :
      Step c (Config.mk c.g (setC c.cs i .failedTimeout))

/-- Fresh process: flag unset, no handle, all callers at the top. -/
def initialConfig : Config :=
  Config.mk (GState.mk false none 0 .notStarted) (fun _ => .start)

/-- Configurations reachable by interleaving `create` callers. -/
inductive Reach : Config → Prop where
  | init : Reach initialConfig
  | step (c c' : Config) : Reach c → Step c c' → Reach c'

lemma setC_same (cs : Nat → CState) (i : Nat) (st : CState) : setC cs i st i = st := by
  simp [setC]

lemma setC_other (cs : Nat → CState) (i : Nat) (st : CState) (k : Nat) (h : k ≠ i) :
    setC cs i st k = cs k := by
  simp [setC, h]

lemma setC_cases {cs : Nat → CState} {i : Nat} {st : CState} {k : Nat} {v : CState}
    (h : setC cs i st k = v) : (k = i ∧ st = v) ∨ (k ≠ i ∧ cs k = v) := by
  by_cases hk : k = i
  · subst hk
    rw [setC_same] at h
    exact Or.inl ⟨rfl, h⟩
  · rw [setC_other _ _ _ _ hk] at h
    exact Or.inr ⟨hk, h⟩

/-- The inductive invariant of the protocol. -/
structure SessionInv (c : Config) : Prop where
  /-- The transport factory has been invoked exactly once when the flag is
  set, never otherwise. -/
  flagCount : c.g.openCount = if c.g.createFlag then 1 else 0
  /-- The flag is unset exactly before initialization was claimed. -/
  stageFlag : c.g.stage = .notStarted ↔ c.g.createFlag = false
  /-- The handle is unpublished exactly while no open has succeeded. -/
  appStage : c.g.app = none ↔
    (c.g.stage = .notStarted ∨ c.g.stage = .opening ∨ c.g.stage = .openFailed)
  /-- Any caller that progressed saw the flag set. -/
  startedFlag : ∀ i, c.cs i ≠ .start → c.g.createFlag = true
  /-- A caller awaiting `Transport.open` matches the ghost stage. -/
  openingStage : ∀ i, c.cs i = .opening → c.g.stage = .opening
  /-- At most one caller ever awaits `Transport.open`. -/
  openingUniq : ∀ i j, c.cs i = .opening → c.cs j = .opening → i = j
  /-- A caller awaiting the liveness check matches the ghost stage and holds
  the published handle. -/
  checkingStage : ∀ i h, c.cs i = .checking h → c.g.stage = .checking ∧ c.g.app = some h
  /-- At most one caller ever awaits the liveness check. -/
  checkingUniq : ∀ i j h h2, c.cs i = .checking h → c.cs j = .checking h2 → i = j
  /-- Every caller that returned holds the published handle. -/
  doneApp : ∀ i h, c.cs i = .done h → c.g.app = some h

lemma sessionInv_init : SessionInv initialConfig := by
  refine ⟨rfl, by simp [initialConfig], by simp [initialConfig], ?_, ?_, ?_, ?_, ?_, ?_⟩
  · intro i hi
    exact absurd rfl hi
  · intro i hi
    exact absurd hi (by simp [initialConfig])
  · intro i j hi _
    exact absurd hi (by simp [initialConfig])
  · intro i h hi
    exact absurd hi (by simp [initialConfig])
  · intro i j h h2 hi _
    exact absurd hi (by simp [initialConfig])
  · intro i h hi
    exact absurd hi (by simp [initialConfig])

lemma sessionInv_step {c c' : Config} (hI : SessionInv c) (hs : Step c c') :
    SessionInv c' := by
  cases hs with
  | startFirst i hc hf =>
    have hstage : c.g.stage = .notStarted := hI.stageFlag.mpr hf
    have happ : c.g.app = none := hI.appStage.mpr (Or.inl hstage)
    have hcount : c.g.openCount = 0 := by rw [hI.flagCount, hf]; rfl
    refine ⟨?_, ?_, ?_, ?_, ?_, ?_, ?_, ?_, ?_⟩
    · show c.g.openCount + 1 = if true then 1 else 0
      simp [hcount]
    · simp
    · show c.g.app = none ↔ _
      simp [happ]
    · intro k _
      rfl
    · intro k _
      rfl
    · intro k j hk hj
      rcases setC_cases hk with ⟨hki, _⟩ | ⟨_, hv⟩
      · rcases setC_cases hj with ⟨hji, _⟩ | ⟨_, hv2⟩
        · rw [hki, hji]
        · have h2 := hI.openingStage j hv2
          rw [hstage] at h2
          exact absurd h2 (by decide)
      · have h2 := hI.openingStage k hv
        rw [hstage] at h2
        exact absurd h2 (by decide)
    · intro k h hk
      rcases setC_cases hk with ⟨_, hv⟩ | ⟨_, hv⟩
      · simp at hv
      · have h2 := (hI.checkingStage k h hv).1
        rw [hstage] at h2
        exact absurd h2 (by decide)
    · intro k j h h2 hk hj
      rcases setC_cases hk with ⟨_, hv⟩ | ⟨_, hv⟩
      · simp at hv
      · have h3 := (hI.checkingStage k h hv).1
        rw [hstage] at h3
        exact absurd h3 (by decide)
    · intro k h hk
      rcases setC_cases hk with ⟨_, hv⟩ | ⟨_, hv⟩
      · simp at hv
      · have h2 := hI.doneApp k h hv
        rw [happ] at h2
        exact absurd h2 (by simp)
  | startReady i h hc hf ha =>
    refine ⟨hI.flagCount, hI.stageFlag, hI.appStage, fun k _ => hf, ?_, ?_, ?_, ?_, ?_⟩
    · intro k hk
      rcases setC_cases hk with ⟨_, hv⟩ | ⟨_, hv⟩
      · simp at hv
      · exact hI.openingStage k hv
    · intro k j hk hj
      rcases setC_cases hk with ⟨_, hv⟩ | ⟨_, hv⟩
      · simp at hv
      · rcases setC_cases hj with ⟨_, hv2⟩ | ⟨_, hv2⟩
        · simp at hv2
        · exact hI.openingUniq k j hv hv2
    · intro k h2 hk
      rcases setC_cases hk with ⟨_, hv⟩ | ⟨_, hv⟩
      · simp at hv
      · exact hI.checkingStage k h2 hv
    · intro k j h2 h3 hk hj
      rcases setC_cases hk with ⟨_, hv⟩ | ⟨_, hv⟩
      · simp at hv
      · rcases setC_cases hj with ⟨_, hv2⟩ | ⟨_, hv2⟩
        · simp at hv2
        · exact hI.checkingUniq k j h2 h3 hv hv2
    · intro k h2 hk
      rcases setC_cases hk with ⟨_, hv⟩ | ⟨_, hv⟩
      · injection hv with hb
        rw [← hb]
        exact ha
      · exact hI.doneApp k h2 hv
  | startPoll i hc hf ha =>
    refine ⟨hI.flagCount, hI.stageFlag, hI.appStage, fun k _ => hf, ?_, ?_, ?_, ?_, ?_⟩
    · intro k hk
      rcases setC_cases hk with ⟨_, hv⟩ | ⟨_, hv⟩
      · simp at hv
      · exact hI.openingStage k hv
    · intro k j hk hj
      rcases setC_cases hk with ⟨_, hv⟩ | ⟨_, hv⟩
      · simp at hv
      · rcases setC_cases hj with ⟨_, hv2⟩ | ⟨_, hv2⟩
        · simp at hv2
        · exact hI.openingUniq k j hv hv2
    · intro k h2 hk
      rcases setC_cases hk with ⟨_, hv⟩ | ⟨_, hv⟩
      · simp at hv
      · exact hI.checkingStage k h2 hv
    · intro k j h2 h3 hk hj
      rcases setC_cases hk with ⟨_, hv⟩ | ⟨_, hv⟩
      · simp at hv
      · rcases setC_cases hj with ⟨_, hv2⟩ | ⟨_, hv2⟩
        · simp at hv2
        · exact hI.checkingUniq k j h2 h3 hv hv2
    · intro k h2 hk
      rcases setC_cases hk with ⟨_, hv⟩ | ⟨_, hv⟩
      · simp at hv
      · exact hI.doneApp k h2 hv
  | openOk i h hc =>
    have hstage : c.g.stage = .opening := hI.openingStage i hc
    have hflag : c.g.createFlag = true := hI.startedFlag i (by rw [hc]; simp)
    have happ : c.g.app = none := hI.appStage.mpr (Or.inr (Or.inl hstage))
    refine ⟨?_, ?_, ?_, fun k _ => hflag, ?_, ?_, ?_, ?_, ?_⟩
    · exact hI.flagCount
    · show InitStage.checking = .notStarted ↔ _
      simp [hflag]
    · simp
    · intro k hk
      rcases setC_cases hk with ⟨_, hv⟩ | ⟨hki, hv⟩
      · simp at hv
      · exact absurd (hI.openingUniq k i hv hc) hki
    · intro k j hk hj
      rcases setC_cases hk with ⟨_, hv⟩ | ⟨hki, hv⟩
      · simp at hv
      · exact absurd (hI.openingUniq k i hv hc) hki
    · intro k h2 hk
      rcases setC_cases hk with ⟨hki, hv⟩ | ⟨_, hv⟩
      · injection hv with hb
        exact ⟨rfl, by rw [← hb]⟩
      · have h3 := (hI.checkingStage k h2 hv).1
        rw [hstage] at h3
        exact absurd h3 (by decide)
    · intro k j h2 h3 hk hj
      rcases setC_cases hk with ⟨hki, hv⟩ | ⟨_, hv⟩
      · rcases setC_cases hj with ⟨hji, hv2⟩ | ⟨_, hv2⟩
        · rw [hki, hji]
        · have h4 := (hI.checkingStage j h3 hv2).1
          rw [hstage] at h4
          exact absurd h4 (by decide)
      · have h4 := (hI.checkingStage k h2 hv).1
        rw [hstage] at h4
        exact absurd h4 (by decide)
    · intro k h2 hk
      rcases setC_cases hk with ⟨_, hv⟩ | ⟨_, hv⟩
      · simp at hv
      · have h3 := hI.doneApp k h2 hv
        rw [happ] at h3
        exact absurd h3 (by simp)
  | openFail i hc =>
    have hstage : c.g.stage = .opening := hI.openingStage i hc
    have hflag : c.g.createFlag = true := hI.startedFlag i (by rw [hc]; simp)
    have happ : c.g.app = none := hI.appStage.mpr (Or.inr (Or.inl hstage))
    refine ⟨?_, ?_, ?_, fun k _ => hflag, ?_, ?_, ?_, ?_, ?_⟩
    · exact hI.flagCount
    · show InitStage.openFailed = .notStarted ↔ _
      simp [hflag]
    · show c.g.app = none ↔ _
      simp [happ]
    · intro k hk
      rcases setC_cases hk with ⟨_, hv⟩ | ⟨hki, hv⟩
      · simp at hv
      · exact absurd (hI.openingUniq k i hv hc) hki
    · intro k j hk hj
      rcases setC_cases hk with ⟨_, hv⟩ | ⟨hki, hv⟩
      · simp at hv
      · exact absurd (hI.openingUniq k i hv hc) hki
    · intro k h2 hk
      rcases setC_cases hk with ⟨_, hv⟩ | ⟨_, hv⟩
      · simp at hv
      · have h3 := (hI.checkingStage k h2 hv).1
        rw [hstage] at h3
        exact absurd h3 (by decide)
    · intro k j h2 h3 hk hj
      rcases setC_cases hk with ⟨_, hv⟩ | ⟨_, hv⟩
      · simp at hv
      · have h4 := (hI.checkingStage k h2 hv).1
        rw [hstage] at h4
        exact absurd h4 (by decide)
    · intro k h2 hk
      rcases setC_cases hk with ⟨_, hv⟩ | ⟨_, hv⟩
      · simp at hv
      · have h3 := hI.doneApp k h2 hv
        rw [happ] at h3
        exact absurd h3 (by simp)
  | configOk i h h2 hc ha =>
    have hcs := hI.checkingStage i h hc
    have hflag : c.g.createFlag = true := hI.startedFlag i (by rw [hc]; simp)
    refine ⟨?_, ?_, ?_, fun k _ => hflag, ?_, ?_, ?_, ?_, ?_⟩
    · exact hI.flagCount
    · show InitStage.ready = .notStarted ↔ _
      simp [hflag]
    · show c.g.app = none ↔ _
      simp [ha]
    · intro k hk
      rcases setC_cases hk with ⟨_, hv⟩ | ⟨_, hv⟩
      · simp at hv
      · have h3 := hI.openingStage k hv
        rw [hcs.1] at h3
        exact absurd h3 (by decide)
    · intro k j hk hj
      rcases setC_cases hk with ⟨_, hv⟩ | ⟨_, hv⟩
      · simp at hv
      · have h3 := hI.openingStage k hv
        rw [hcs.1] at h3
        exact absurd h3 (by decide)
    · intro k h3 hk
      rcases setC_cases hk with ⟨_, hv⟩ | ⟨hki, hv⟩
      · simp at hv
      · exact absurd (hI.checkingUniq k i h3 h hv hc) hki
    · intro k j h3 h4 hk hj
      rcases setC_cases hk with ⟨_, hv⟩ | ⟨hki, hv⟩
      · simp at hv
      · exact absurd (hI.checkingUniq k i h3 h hv hc) hki
    · intro k h3 hk
      rcases setC_cases hk with ⟨_, hv⟩ | ⟨_, hv⟩
      · injection hv with hb
        rw [← hb]
        exact ha
      · exact hI.doneApp k h3 hv
  | configFail i h hc =>
    have hcs := hI.checkingStage i h hc
    have hflag : c.g.createFlag = true := hI.startedFlag i (by rw [hc]; simp)
    refine ⟨?_, ?_, ?_, fun k _ => hflag, ?_, ?_, ?_, ?_, ?_⟩
    · exact hI.flagCount
    · show InitStage.configFailed = .notStarted ↔ _
      simp [hflag]
    · show c.g.app = none ↔ _
      simp [hcs.2]
    · intro k hk
      rcases setC_cases hk with ⟨_, hv⟩ | ⟨_, hv⟩
      · simp at hv
      · have h3 := hI.openingStage k hv
        rw [hcs.1] at h3
        exact absurd h3 (by decide)
    · intro k j hk hj
      rcases setC_cases hk with ⟨_, hv⟩ | ⟨_, hv⟩
      · simp at hv
      · have h3 := hI.openingStage k hv
        rw [hcs.1] at h3
        exact absurd h3 (by decide)
    · intro k h3 hk
      rcases setC_cases hk with ⟨_, hv⟩ | ⟨hki, hv⟩
      · simp at hv
      · exact absurd (hI.checkingUniq k i h3 h hv hc) hki
    · intro k j h3 h4 hk hj
      rcases setC_cases hk with ⟨_, hv⟩ | ⟨hki, hv⟩
      · simp at hv
      · exact absurd (hI.checkingUniq k i h3 h hv hc) hki
    · intro k h3 hk
      rcases setC_cases hk with ⟨_, hv⟩ | ⟨_, hv⟩
      · simp at hv
      · exact hI.doneApp k h3 hv
  | pollFound i n h hc ha =>
    have hflag : c.g.createFlag = true := hI.startedFlag i (by rw [hc]; simp)
    refine ⟨hI.flagCount, hI.stageFlag, hI.appStage, fun k _ => hflag, ?_, ?_, ?_, ?_, ?_⟩
    · intro k hk
      rcases setC_cases hk with ⟨_, hv⟩ | ⟨_, hv⟩
      · simp at hv
      · exact hI.openingStage k hv
    · intro k j hk hj
      rcases setC_cases hk with ⟨_, hv⟩ | ⟨_, hv⟩
      · simp at hv
      · rcases setC_cases hj with ⟨_, hv2⟩ | ⟨_, hv2⟩
        · simp at hv2
        · exact hI.openingUniq k j hv hv2
    · intro k h2 hk
      rcases setC_cases hk with ⟨_, hv⟩ | ⟨_, hv⟩
      · simp at hv
      · exact hI.checkingStage k h2 hv
    · intro k j h2 h3 hk hj
      rcases setC_cases hk with ⟨_, hv⟩ | ⟨_, hv⟩
      · simp at hv
      · rcases setC_cases hj with ⟨_, hv2⟩ | ⟨_, hv2⟩
        · simp at hv2
        · exact hI.checkingUniq k j h2 h3 hv hv2
    · intro k h2 hk
      rcases setC_cases hk with ⟨_, hv⟩ | ⟨_, hv⟩
      · injection hv with hb
        rw [← hb]
        exact ha
      · exact hI.doneApp k h2 hv
  | pollAgain i n hc ha hn =>
    have hflag : c.g.createFlag = true := hI.startedFlag i (by rw [hc]; simp)
    refine ⟨hI.flagCount, hI.stageFlag, hI.appStage, fun k _ => hflag, ?_, ?_, ?_, ?_, ?_⟩
    · intro k hk
      rcases setC_cases hk with ⟨_, hv⟩ | ⟨_, hv⟩
      · simp at hv
      · exact hI.openingStage k hv
    · intro k j hk hj
      rcases setC_cases hk with ⟨_, hv⟩ | ⟨_, hv⟩
      · simp at hv
      · rcases setC_cases hj with ⟨_, hv2⟩ | ⟨_, hv2⟩
        · simp at hv2
        · exact hI.openingUniq k j hv hv2
    · intro k h2 hk
      rcases setC_cases hk with ⟨_, hv⟩ | ⟨_, hv⟩
      · simp at hv
      · exact hI.checkingStage k h2 hv
    · intro k j h2 h3 hk hj
      rcases setC_cases hk with ⟨_, hv⟩ | ⟨_, hv⟩
      · simp at hv
      · rcases setC_cases hj with ⟨_, hv2⟩ | ⟨_, hv2⟩
        · simp at hv2
        · exact hI.checkingUniq k j h2 h3 hv hv2
    · intro k h2 hk
      rcases setC_cases hk with ⟨_, hv⟩ | ⟨_, hv⟩
      · simp at hv
      · exact hI.doneApp k h2 hv
  | pollTimeout i hc ha =>
    have hflag : c.g.createFlag = true := hI.startedFlag i (by rw [hc]; simp)
    refine ⟨hI.flagCount, hI.stageFlag, hI.appStage, fun k _ => hflag, ?_, ?_, ?_, ?_, ?_⟩
    · intro k hk
      rcases setC_cases hk with ⟨_, hv⟩ | ⟨_, hv⟩
      · simp at hv
      · exact hI.openingStage k hv
    · intro k j hk hj
      rcases setC_cases hk with ⟨_, hv⟩ | ⟨_, hv⟩
      · simp at hv
      · rcases setC_cases hj with ⟨_, hv2⟩ | ⟨_, hv2⟩
        · simp at hv2
        · exact hI.openingUniq k j hv hv2
    · intro k h2 hk
      rcases setC_cases hk with ⟨_, hv⟩ | ⟨_, hv⟩
      · simp at hv
      · exact hI.checkingStage k h2 hv
    · intro k j h2 h3 hk hj
      rcases setC_cases hk with ⟨_, hv⟩ | ⟨_, hv⟩
      · simp at hv
      · rcases setC_cases hj with ⟨_, hv2⟩ | ⟨_, hv2⟩
        · simp at hv2
        · exact hI.checkingUniq k j h2 h3 hv hv2
    · intro k h2 hk
      rcases setC_cases hk with ⟨_, hv⟩ | ⟨_, hv⟩
      · simp at hv
      · exact hI.doneApp k h2 hv

/-- Every reachable configuration satisfies the invariant. -/
lemma reach_sessionInv {c : Config} (hr : Reach c) : SessionInv c := by
  induction hr with
  | init => exact sessionInv_init
  | step c c' _ hs ih => exact sessionInv_step ih hs

/-- Claim C6: across any interleaving of `create` callers, the transport
factory's open() is invoked at most once, and exactly once as soon as any
caller has progressed past the flag check (every non-`start` caller saw the
flag set, and the flag is set exactly when one open was issued). -/
theorem claim6_transport_open_once (c : Config) (hr : Reach c) :
    c.g.openCount ≤ 1 ∧ (∀ i, c.cs i ≠ .start → c.g.openCount = 1) := by
  have hI := reach_sessionInv hr
  constructor
  · rw [hI.flagCount]
    split <;> simp
  · intro i hi
    rw [hI.flagCount, hI.startedFlag i hi]
    rfl

/-- One caller has claimed initialization and awaits `Transport.open`. -/
def openedConfig : Config :=
  Config.mk (GState.mk true none 1 .opening) (setC (fun _ => .start) 0 .opening)

lemma reach_opened : Reach openedConfig :=
  Reach.step _ _ Reach.init (Step.startFirst initialConfig 0 rfl rfl)

theorem claim6_transport_open_once_witness : openedConfig.g.openCount = 1 :=
  (claim6_transport_open_once openedConfig reach_opened).2 0 (by decide)

/-- The bad interleaving behind claims C1: caller 0 claims initialization,
caller 1 starts polling, the transport opens — publishing the handle — and
caller 1's next poll returns the handle while caller 0 is still awaiting the
liveness check. -/
def badPollConfig : Config :=
  Config.mk (GState.mk true (some 7) 1 .checking)
    (setC (setC (setC (setC (fun _ => .start) 0 .opening) 1 (.polling 0))
      0 (.checking 7)) 1 (.done 7))

lemma reach_badPoll : Reach badPollConfig := by
  have h1 := Reach.step _ _ Reach.init (Step.startFirst initialConfig 0 rfl rfl)
  have h2 := Reach.step _ _ h1 (Step.startPoll _ 1 rfl rfl rfl)
  have h3 := Reach.step _ _ h2 (Step.openOk _ 0 7 rfl)
  exact Reach.step _ _ h3 (Step.pollFound _ 1 0 7 rfl rfl)

/-- Claim C1 counterexample: a reachable configuration in which caller 1 has
obtained the handle (`done 7`) while the initializer is still awaiting the
liveness check (`stage = checking`, the configuration query unresolved) —
the handle is published by `this.app = new Eth(transport)` before
`getAppConfiguration()` settles, so a polling caller can obtain a handle
whose liveness check has not yet succeeded. -/
theorem claim1_counterexample :
    Reach badPollConfig
    ∧ badPollConfig.cs 1 = .done 7
    ∧ badPollConfig.g.stage = .checking :=
  ⟨reach_badPoll, rfl, rfl⟩

/-- Claim C1 (amended): every caller that returns holds the single published
handle, and the transport was opened exactly once; but the handle is
published before the liveness check completes, so there is an interleaving
in which a polling caller obtains the handle while the configuration query
is still pending. -/
theorem claim1_amended_publish_before_liveness :
    (∀ c, Reach c → ∀ i h, c.cs i = .done h →
        c.g.app = some h ∧ c.g.openCount = 1)
    ∧ (∃ c, Reach c ∧ ∃ i h, c.cs i = .done h ∧ c.g.stage = .checking) := by
  constructor
  · intro c hr i h hd
    have hI := reach_sessionInv hr
    refine ⟨hI.doneApp i h hd, ?_⟩
    rw [hI.flagCount, hI.startedFlag i (by rw [hd]; simp)]
    rfl
  · exact ⟨badPollConfig, reach_badPoll, 1, 7, rfl, rfl⟩

theorem claim1_amended_publish_before_liveness_witness :
    badPollConfig.g.app = some 7 ∧ badPollConfig.g.openCount = 1 :=
  claim1_amended_publish_before_liveness.1 badPollConfig reach_badPoll 1 7 rfl

/-- The initializer's `Transport.open` rejected: flag set, handle never
published. -/
def openFailedConfig : Config :=
  Config.mk (GState.mk true none 1 .openFailed)
    (setC (setC (fun _ => .start) 0 .opening) 0 .failedOpen)

lemma reach_openFailed : Reach openFailedConfig :=
  Reach.step _ _ (Reach.step _ _ Reach.init (Step.startFirst initialConfig 0 rfl rfl))
    (Step.openFail _ 0 rfl)

/-- The initializer's liveness check rejected after the handle was
published, and a later caller then returned the (unverified) handle
immediately. -/
def configFailedConfig : Config :=
  Config.mk (GState.mk true (some 7) 1 .configFailed)
    (setC (setC (setC (setC (fun _ => .start) 0 .opening) 0 (.checking 7))
      0 .failedConfig) 1 (.done 7))

lemma reach_configFailed : Reach configFailedConfig := by
  have h1 := Reach.step _ _ Reach.init (Step.startFirst initialConfig 0 rfl rfl)
  have h2 := Reach.step _ _ h1 (Step.openOk _ 0 7 rfl)
  have h3 := Reach.step _ _ h2 (Step.configFail _ 0 7 rfl)
  exact Reach.step _ _ h3 (Step.startReady _ 1 7 rfl rfl rfl)

/-- Claim C9 counterexample: the first `create` threw during the liveness
check (`failedConfig`), yet a subsequent `create` returned a handle
immediately (`done 7`) instead of sleeping through the poll budget and
failing with the transport-open timeout — because `this.app` was assigned
before `getAppConfiguration()` was awaited. -/
theorem claim9_counterexample :
    Reach configFailedConfig
    ∧ configFailedConfig.cs 0 = .failedConfig
    ∧ configFailedConfig.cs 1 = .done 7 :=
  ⟨reach_configFailed, rfl, rfl⟩

/-- Claim C9 (amended): if the first `create` throws during transport
opening, the flag remains set, the handle is never published, the factory is
never invoked again (the open count stays 1 and no caller ever reaches
`done` from such a configuration), and a poller that exhausts its 1200
iterations fails with the transport-open timeout.  If instead the first
`create` throws during the liveness check, the handle was already published
and any subsequent caller returns it immediately. -/
theorem claim9_amended_open_failure_behavior :
    (∀ c, Reach c → c.g.stage = .openFailed →
        c.g.app = none ∧ c.g.createFlag = true ∧ c.g.openCount = 1)
    ∧ (∀ c c', Reach c → c.g.stage = .openFailed → Step c c' →
        c'.g.stage = .openFailed ∧ c'.g.app = none
        ∧ c'.g.openCount = c.g.openCount
        ∧ (∀ i h, c'.cs i = .done h → c.cs i = .done h))
    ∧ (∀ c i, Reach c → c.cs i = .polling 1199 → c.g.app = none →
        Step c (Config.mk c.g (setC c.cs i .failedTimeout)))
    ∧ (∀ c, Reach c → c.g.stage = .configFailed →
        ∃ h, c.g.app = some h ∧ ∀ i, c.cs i = .start →
          Step c (Config.mk c.g (setC c.cs i (.done h)))) := by
  refine ⟨?_, ?_, ?_, ?_⟩
  · intro c hr hstage
    have hI := reach_sessionInv hr
    have happ : c.g.app = none := hI.appStage.mpr (Or.inr (Or.inr hstage))
    have hflag : c.g.createFlag = true := by
      cases hcf : c.g.createFlag
      · have := hI.stageFlag.mpr hcf
        rw [hstage] at this
        exact absurd this (by decide)
      · rfl
    refine ⟨happ, hflag, ?_⟩
    rw [hI.flagCount, hflag]
    rfl
  · intro c c' hr hstage hs
    have hI := reach_sessionInv hr
    have happ : c.g.app = none := hI.appStage.mpr (Or.inr (Or.inr hstage))
    cases hs with
    | startFirst i hc hf =>
      have := hI.stageFlag.mpr hf
      rw [hstage] at this
      exact absurd this (by decide)
    | startReady i h hc hf ha =>
      rw [happ] at ha
      exact absurd ha (by simp)
    | startPoll i hc hf ha =>
      refine ⟨hstage, happ, rfl, ?_⟩
      intro k h hk
      rcases setC_cases hk with ⟨_, hv⟩ | ⟨_, hv⟩
      · simp at hv
      · exact hv
    | openOk i h hc =>
      have h2 := hI.openingStage i hc
      rw [hstage] at h2
      exact absurd h2 (by decide)
    | openFail i hc =>
      have h2 := hI.openingStage i hc
      rw [hstage] at h2
      exact absurd h2 (by decide)
    | configOk i h h2 hc ha =>
      have h3 := (hI.checkingStage i h hc).1
      rw [hstage] at h3
      exact absurd h3 (by decide)
    | configFail i h hc =>
      have h3 := (hI.checkingStage i h hc).1
      rw [hstage] at h3
      exact absurd h3 (by decide)
    | pollFound i n h hc ha =>
      rw [happ] at ha
      exact absurd ha (by simp)
    | pollAgain i n hc ha hn =>
      refine ⟨hstage, happ, rfl, ?_⟩
      intro k h hk
      rcases setC_cases hk with ⟨_, hv⟩ | ⟨_, hv⟩
      · simp at hv
      · exact hv
    | pollTimeout i hc ha =>
      refine ⟨hstage, happ, rfl, ?_⟩
      intro k h hk
      rcases setC_cases hk with ⟨_, hv⟩ | ⟨_, hv⟩
      · simp at hv
      · exact hv
  · intro c i hr hc ha
    exact Step.pollTimeout c i hc ha
  · intro c hr hstage
    have hI := reach_sessionInv hr
    cases happ : c.g.app with
    | none =>
      have h2 := hI.appStage.mp happ
      rw [hstage] at h2
      rcases h2 with h2 | h2 | h2 <;> exact absurd h2 (by decide)
    | some h =>
      have hflag : c.g.createFlag = true := by
        cases hcf : c.g.createFlag
        · have := hI.stageFlag.mpr hcf
          rw [hstage] at this
          exact absurd this (by decide)
        · rfl
      exact ⟨h, rfl, fun i hi => Step.startReady c i h hi hflag happ⟩

theorem claim9_amended_open_failure_behavior_witness :
    openFailedConfig.g.app = none ∧ openFailedConfig.g.createFlag = true
    ∧ openFailedConfig.g.openCount = 1 :=
  claim9_amended_open_failure_behavior.1 openFailedConfig reach_openFailed rfl
